import Mathlib

/-!
Shallow embedding of the product-creation workflow and the relational
schema of the ifazo/next.js-project repository.

Part 1 models the JavaScript numeric conversions used by the client-side
validation in `src/components/create-product-form.tsx`:
`Number(val)` (via `jsNumber`), `parseFloat` (via `jsParseFloat`) and
`parseInt(val, 10)` (via `jsParseInt10`).  JavaScript numbers that matter
to the validation are NaN, the two infinities and finite values; finite
values are modelled as rationals.
-/

namespace NextShop

/-- Result of a JavaScript numeric conversion: NaN, an infinity, or a
finite value (modelled as a rational). -/
inductive JsNum where
  | nan : JsNum
  | posInf : JsNum
  | negInf : JsNum
  | num : Rat → JsNum
deriving DecidableEq, Repr

/-- The whitespace characters stripped by JavaScript string-to-number
conversion (space, tab, line feed, carriage return, vertical tab, form
feed). -/
def isJsWhitespace (c : Char) : Bool :=
  c == ' ' || c == '\t' || c == '\n' || c == '\r' ||
  c == Char.ofNat 11 || c == Char.ofNat 12

/-- Decimal digit test. -/
def isDigitChar (c : Char) : Bool :=
  '0' ≤ c && c ≤ '9'

/-- Value of a decimal digit character. -/
def digitVal (c : Char) : Nat :=
  c.toNat - '0'.toNat

/-- Value of a list of decimal digit characters, most significant first. -/
def digitsToNat (cs : List Char) : Nat :=
  cs.foldl (fun a c => 10 * a + digitVal c) 0

/-- Hexadecimal digit test. -/
def isHexDigitChar (c : Char) : Bool :=
  isDigitChar c || ('a' ≤ c && c ≤ 'f') || ('A' ≤ c && c ≤ 'F')

/-- Value of a hexadecimal digit character. -/
def hexDigitVal (c : Char) : Nat :=
  if isDigitChar c then digitVal c
  else if 'a' ≤ c && c ≤ 'f' then c.toNat - 'a'.toNat + 10
  else c.toNat - 'A'.toNat + 10

/-- Value of a list of hexadecimal digit characters. -/
def hexToNat (cs : List Char) : Nat :=
  cs.foldl (fun a c => 16 * a + hexDigitVal c) 0

/-- Octal digit test. -/
def isOctalDigitChar (c : Char) : Bool :=
  '0' ≤ c && c ≤ '7'

/-- Value of a list of octal digit characters. -/
def octalToNat (cs : List Char) : Nat :=
  cs.foldl (fun a c => 8 * a + digitVal c) 0

/-- Binary digit test. -/
def isBinaryDigitChar (c : Char) : Bool :=
  c == '0' || c == '1'

/-- Value of a list of binary digit characters. -/
def binaryToNat (cs : List Char) : Nat :=
  cs.foldl (fun a c => 2 * a + digitVal c) 0

/-- Unevaluated decimal literal: mantissa digits value `m`, number of
fraction digits `f` and exponent `e`, denoting `m / 10^f * 10^e`.  Kept
as integers so that the rational value is produced by a single `mkRat`. -/
structure DecLit where
  m : Nat
  f : Nat
  e : Int
deriving DecidableEq, Repr

/-- Rational value of a decimal literal with a sign flag. -/
def decRat (neg : Bool) (d : DecLit) : Rat :=
  let sm : Int := if neg then -(d.m : Int) else (d.m : Int)
  let k : Int := d.e - (d.f : Int)
  if 0 ≤ k then ((sm * 10 ^ k.toNat : Int) : Rat) else mkRat sm (10 ^ (-k).toNat)

/-- Read an exponent body (optional sign then at least one digit) from the
front of `cs`; returns the exponent and the unconsumed rest. -/
def readExp (cs : List Char) : Option (Int × List Char) :=
  match cs with
  | '+' :: t =>
      let (d, r) := t.span isDigitChar
      if d.isEmpty then none else some ((digitsToNat d : Int), r)
  | '-' :: t =>
      let (d, r) := t.span isDigitChar
      if d.isEmpty then none else some (-(digitsToNat d : Int), r)
  | _ =>
      let (d, r) := cs.span isDigitChar
      if d.isEmpty then none else some ((digitsToNat d : Int), r)

/-- Read the longest unsigned decimal literal (`digits`, `digits.digits`,
`.digits`, optionally followed by an exponent part) from the front of
`cs`; returns its value and the unconsumed rest, or `none` when no such
literal starts `cs`. -/
def readUnsignedDec (cs : List Char) : Option (DecLit × List Char) :=
  let (intD, r1) := cs.span isDigitChar
  let (fracD, r2) :=
    match r1 with
    | '.' :: t => t.span isDigitChar
    | _ => ([], r1)
  if intD.isEmpty && fracD.isEmpty then none
  else
    let lit : DecLit := ⟨digitsToNat (intD ++ fracD), fracD.length, 0⟩
    match r2 with
    | c :: t =>
        if c == 'e' || c == 'E' then
          match readExp t with
          | some (e, r3) => some ({ lit with e := e }, r3)
          | none => some (lit, r2)
        else some (lit, r2)
    | [] => some (lit, [])

/-- Strip JavaScript whitespace from both ends of a string, as character
list. -/
def jsStrTrim (s : String) : List Char :=
  ((s.toList.dropWhile isJsWhitespace).reverse.dropWhile isJsWhitespace).reverse

/-- Conversion of a (sign-stripped) decimal body with an explicit sign
flag, used by `jsNumber`: the whole body must be `Infinity` or a complete
decimal literal, otherwise the result is NaN. -/
def jsDecNumber (neg : Bool) (body : List Char) : JsNum :=
  if body == "Infinity".toList then
    if neg then JsNum.negInf else JsNum.posInf
  else
    match readUnsignedDec body with
    | some (lit, []) => JsNum.num (decRat neg lit)
    | _ => JsNum.nan

/-- JavaScript `Number(s)` on a string: trims whitespace, maps the empty
string to 0, accepts `0x`/`0o`/`0b` integer literals (without sign) and
signed decimal literals (including `Infinity`); anything else is NaN. -/
def jsNumber (s : String) : JsNum :=
  match jsStrTrim s with
  | [] => JsNum.num 0
  | '0' :: x :: t =>
      if x == 'x' || x == 'X' then
        if !t.isEmpty && t.all isHexDigitChar then JsNum.num (hexToNat t) else JsNum.nan
      else if x == 'o' || x == 'O' then
        if !t.isEmpty && t.all isOctalDigitChar then JsNum.num (octalToNat t) else JsNum.nan
      else if x == 'b' || x == 'B' then
        if !t.isEmpty && t.all isBinaryDigitChar then JsNum.num (binaryToNat t) else JsNum.nan
      else jsDecNumberOfChars ('0' :: x :: t)
  | '+' :: t => jsDecNumber false t
  | '-' :: t => jsDecNumber true t
  | cs => jsDecNumber false cs
where
  /-- Sign splitting for the decimal case reached from the `0`-headed
  branch (no sign can be present there, the list starts with `0`). -/
  jsDecNumberOfChars (cs : List Char) : JsNum := jsDecNumber false cs

/-- JavaScript `parseFloat(s)`: skips leading whitespace, then reads the
longest prefix that is a signed decimal literal or `Infinity`, ignoring
any trailing characters; NaN when no such prefix exists. -/
def jsParseFloat (s : String) : JsNum :=
  let cs := s.toList.dropWhile isJsWhitespace
  let (neg, body) :=
    match cs with
    | '+' :: t => (false, t)
    | '-' :: t => (true, t)
    | _ => (false, cs)
  if body.take 8 == "Infinity".toList then
    if neg then JsNum.negInf else JsNum.posInf
  else
    match readUnsignedDec body with
    | some (lit, _) => JsNum.num (decRat neg lit)
    | none => JsNum.nan

/-- JavaScript `parseInt(s, 10)`: skips leading whitespace, reads an
optional sign and then the longest prefix of decimal digits, ignoring any
trailing characters; NaN when there is no digit. -/
def jsParseInt10 (s : String) : JsNum :=
  let cs := s.toList.dropWhile isJsWhitespace
  let (neg, body) :=
    match cs with
    | '+' :: t => (false, t)
    | '-' :: t => (true, t)
    | _ => (false, cs)
  let (d, _) := body.span isDigitChar
  if d.isEmpty then JsNum.nan
  else JsNum.num (decRat neg ⟨digitsToNat d, 0, 0⟩)

/-- JavaScript `isNaN` on a conversion result. -/
def JsNum.isNaN : JsNum → Bool
  | JsNum.nan => true
  | _ => false

/-- JavaScript `> 0` comparison (false on NaN and on negative infinity). -/
def JsNum.gtZero : JsNum → Bool
  | JsNum.num q => decide (0 < q)
  | JsNum.posInf => true
  | _ => false

/-- JavaScript `>= 0` comparison (false on NaN and on negative infinity). -/
def JsNum.geZero : JsNum → Bool
  | JsNum.num q => decide (0 ≤ q)
  | JsNum.posInf => true
  | _ => false

/-- The converted value is a number less than or equal to zero
(false on NaN: NaN is not a number). -/
def JsNum.leZero : JsNum → Bool
  | JsNum.num q => decide (q ≤ 0)
  | JsNum.negInf => true
  | _ => false

/-- The converted value is a number strictly less than zero. -/
def JsNum.ltZero : JsNum → Bool
  | JsNum.num q => decide (q < 0)
  | JsNum.negInf => true
  | _ => false

/-!
Part 2: the product-creation form of
`src/components/create-product-form.tsx` — the zod schema
`productFormSchema`, the `onSubmit` handler and the
`form.handleSubmit(onSubmit)` wiring through the zod resolver.
Effects (the image uploads to the external host and the POST to
`/api/products`) are modelled as a trace of events produced under an
environment fixing the outcome of each network call.
-/

/-- Maximum accepted image size, `5 * 1024 * 1024` bytes (line 37). -/
def MAX_FILE_SIZE : Nat := 5 * 1024 * 1024

/-- Accepted image MIME types (line 38). -/
def ACCEPTED_IMAGE_TYPES : List String := ["image/jpeg", "image/png", "image/webp"]

/-- The attributes of a browser `File` object the validation inspects:
its byte size and its MIME type. -/
structure FileMeta where
  size : Nat
  type : String
deriving DecidableEq, Repr

/-- One entry of the `images` array of the form: `{ file?: File }`. -/
structure ImageSlot where
  file : Option FileMeta
deriving DecidableEq, Repr

/-- The refinements on an image file (lines 51-58): size at most
`MAX_FILE_SIZE` and MIME type among `ACCEPTED_IMAGE_TYPES`. -/
def fileOk (f : FileMeta) : Bool :=
  decide (f.size ≤ MAX_FILE_SIZE) && ACCEPTED_IMAGE_TYPES.contains f.type

/-- Validation of one image slot: the file is `.optional()`, and when
present must satisfy `fileOk`. -/
def imageSlotOk (s : ImageSlot) : Bool :=
  match s.file with
  | none => true
  | some f => fileOk f

/-- The raw values of the product-creation form (the `ProductFormValues`
type inferred from the schema): price and stock are strings as typed by
the user. -/
structure ProductFormValues where
  name : String
  categorySlug : String
  price : String
  images : List ImageSlot
  variants : List String
  description : String
  specifications : List String
  stock : String
deriving DecidableEq, Repr

/-- The zod schema `productFormSchema` (lines 40-70) as a Boolean
validator: name at least 4 characters, categorySlug any string, price a
string whose `Number` conversion is not NaN and is `> 0`, images an array
of length exactly 5 of valid slots, variants exactly 5 strings,
description at least 10 characters, specifications exactly 6 strings, and
stock a string whose `Number` conversion is not NaN and is `>= 0`. -/
def productFormSchema (v : ProductFormValues) : Bool :=
  decide (4 ≤ v.name.length) &&
  (!(jsNumber v.price).isNaN && (jsNumber v.price).gtZero) &&
  (decide (v.images.length = 5) && v.images.all imageSlotOk) &&
  decide (v.variants.length = 5) &&
  decide (10 ≤ v.description.length) &&
  decide (v.specifications.length = 6) &&
  (!(jsNumber v.stock).isNaN && (jsNumber v.stock).geZero)

/-- The `productData` object literal built by `onSubmit`
(lines 121-131): exactly the fields serialized into the JSON body of the
POST to `/api/products`. -/
structure ProductData where
  name : String
  images : List String
  variants : List String
  price : JsNum
  stock : JsNum
  description : String
  specifications : List String
  categorySlug : String
  shopName : String
deriving DecidableEq, Repr

/-- A network request issued by `onSubmit`: a multipart upload of one
image to the external image host (api.imgbb.com), or the JSON POST of the
product data to `/api/products` carrying the `role` header. -/
inductive Event where
  | imgbbUpload : FileMeta → Event
  | apiPost : ProductData → String → Event
deriving DecidableEq, Repr

/-- Event is an upload to the image host. -/
def Event.isImgbbUpload : Event → Bool
  | Event.imgbbUpload _ => true
  | _ => false

/-- Event is the POST to `/api/products`. -/
def Event.isApiPost : Event → Bool
  | Event.apiPost _ _ => true
  | _ => false

/-- A toast notification (the `toast` hook calls of `onSubmit`). -/
structure Toast where
  title : String
  description : String
  destructive : Bool
deriving DecidableEq, Repr

/-- The generic failure toast of the catch block (lines 154-158). -/
def errorToast : Toast :=
  { title := "Error"
    description := "There was a problem creating the product."
    destructive := true }

/-- The success toast (lines 146-149). -/
def successToast (n : String) : Toast :=
  { title := "Product Created"
    description := "Product \"" ++ n ++ "\" has been successfully created."
    destructive := false }

/-- Environment fixing the outcome of each network call: the `k`-th image
upload of a run either yields a display URL (`some url`, the
`result.data.display_url` of a response that is ok with `success`) or
fails (`none`, a response that is not ok or not `success`, which makes
`onSubmit` throw); `apiOk` is whether the POST to `/api/products`
responds ok. -/
structure Env where
  uploadResult : Nat → FileMeta → Option String
  apiOk : Bool

/-- Observable outcome of one `onSubmit` run: the network requests in the
order they were awaited, the toasts shown, and whether `form.reset()`
ran. -/
structure RunResult where
  events : List Event
  toasts : List Toast
  formReset : Bool
deriving Repr

/-- The upload loop of `onSubmit` (lines 96-119): iterates over the image
slots in order, skipping empty slots, awaiting each upload before
starting the next (`k` counts the uploads already performed); returns the
events issued and `some urls` (the `uploadedImages` accumulator) when all
uploads succeeded, or `none` when one failed and the loop threw. -/
def uploadLoop (env : Env) : List ImageSlot → Nat → List Event × Option (List String)
  | [], _ => ([], some [])
  | slot :: rest, k =>
    match slot.file with
    | none => uploadLoop env rest k
    | some f =>
      match env.uploadResult k f with
      | none => ([Event.imgbbUpload f], none)
      | some url =>
        let r := uploadLoop env rest (k + 1)
        (Event.imgbbUpload f :: r.1, r.2.map (fun us => url :: us))

/-- The files present in the image slots, in slot order. -/
def slotFiles (slots : List ImageSlot) : List FileMeta :=
  slots.filterMap ImageSlot.file

/-- The display URLs the environment hands back for the files present in
the slots, in slot order (one per slot that holds a file). -/
def uploadUrls (env : Env) : List ImageSlot → Nat → List String
  | [], _ => []
  | slot :: rest, k =>
    match slot.file with
    | none => uploadUrls env rest k
    | some f => (env.uploadResult k f).getD "" :: uploadUrls env rest (k + 1)

/-- The `onSubmit` handler (lines 92-162): upload the images one at a
time; on upload failure the thrown error reaches the catch block, which
shows the generic destructive toast; otherwise build `productData`, POST
it once to `/api/products` with the `role` header, and either show the
success toast and reset the form, or (response not ok) throw into the
catch block. -/
def onSubmit (env : Env) (role shopName : String) (data : ProductFormValues) : RunResult :=
  let r := uploadLoop env data.images 0
  match r.2 with
  | none =>
    { events := r.1, toasts := [errorToast], formReset := false }
  | some urls =>
    let productData : ProductData :=
      { name := data.name
        images := urls
        variants := data.variants
        price := jsParseFloat data.price
        stock := jsParseInt10 data.stock
        description := data.description
        specifications := data.specifications
        categorySlug := data.categorySlug
        shopName := shopName }
    let evs2 := r.1 ++ [Event.apiPost productData role]
    if env.apiOk then
      { events := evs2, toasts := [successToast data.name], formReset := true }
    else
      { events := evs2, toasts := [errorToast], formReset := false }

/-- The `form.handleSubmit(onSubmit)` wiring (line 174) with the
`zodResolver(productFormSchema)` resolver (line 79): `onSubmit` runs only
when the schema accepts the form values; otherwise nothing is submitted
and the run is `none`. -/
def handleSubmit (env : Env) (role shopName : String) (v : ProductFormValues) :
    Option RunResult :=
  if productFormSchema v then some (onSubmit env role shopName v) else none

/-!
Part 3: the relational schema (the Prisma models of the schema file).
Each model becomes a row structure with its scalar fields (`DateTime`
audit fields `createdAt`/`updatedAt`/`emailVerified` and the purely
virtual relation lists are omitted; `Float` columns are modelled as
rationals).  The `@unique` and `@relation` constraints the database
enforces on every write are modelled by insert operations that succeed
exactly when the constraints hold, and reachable states are those built
from the empty database by such inserts.
-/

/-- The `Role` enum. -/
inductive Role where
  | buyer | seller | admin
deriving DecidableEq, Repr

/-- The `Status` enum. -/
inductive Status where
  | active | suspended
deriving DecidableEq, Repr

/-- A row of the `users` table (model `User`): `email` is `@unique`. -/
structure UserRow where
  id : String
  name : Option String
  image : Option String
  role : Role
  email : String
  password : Option String
  status : Status
deriving DecidableEq, Repr

/-- A row of the `categories` table (model `Category`): `slug` is
`@unique`. -/
structure CategoryRow where
  id : String
  name : String
  slug : String
  image : String
  details : String
  status : Status
deriving DecidableEq, Repr

/-- A row of the `shops` table (model `Shop`): `name` and `sellerEmail`
are `@unique`, and `sellerEmail` references `users.email`. -/
structure ShopRow where
  id : String
  name : String
  image : String
  details : String
  address : String
  sellerEmail : String
  status : Status
deriving DecidableEq, Repr

/-- A row of the `products` table (model `Product`): `name` is `@unique`,
`shopName` references `shops.name` and `categorySlug` references
`categories.slug`. -/
structure ProductRow where
  id : String
  name : String
  images : List String
  variants : List String
  price : Rat
  stock : Int
  description : String
  specifications : List String
  shopName : String
  categorySlug : String
deriving DecidableEq, Repr

/-- A row of the `orders` table (model `Order`): `paymentId` is
`@unique` and `userEmail` references `users.email`. -/
structure OrderRow where
  id : String
  paymentId : String
  status : String
  totalAmount : Rat
  userEmail : String
deriving DecidableEq, Repr

/-- A row of the `order_products` table (model `Cart`): an order
line-item carrying the denormalized product snapshot fields `name`,
`price`, `variant`, `quantity`, `image` (plus `shopName` and
`categorySlug`); `orderId` optionally references `orders.id`. -/
structure CartRow where
  id : String
  productId : String
  name : String
  price : Rat
  variant : String
  quantity : Int
  image : String
  shopName : String
  categorySlug : String
  orderId : Option String
deriving DecidableEq, Repr

/-- A database state: the rows of the tables the claims are about. -/
structure DBState where
  users : List UserRow
  categories : List CategoryRow
  shops : List ShopRow
  products : List ProductRow
  orders : List OrderRow
  carts : List CartRow
deriving Repr

/-- The empty database. -/
def dbEmpty : DBState :=
  { users := [], categories := [], shops := [], products := [], orders := [], carts := [] }

/-- Insert a user: fails when the `@id` or the `@unique` email collides. -/
def insertUser (db : DBState) (u : UserRow) : Option DBState :=
  if !db.users.any (fun w => w.id == u.id || w.email == u.email) then
    some { db with users := db.users ++ [u] }
  else none

/-- Insert a category: fails when the `@id` or the `@unique` slug
collides. -/
def insertCategory (db : DBState) (c : CategoryRow) : Option DBState :=
  if !db.categories.any (fun d => d.id == c.id || d.slug == c.slug) then
    some { db with categories := db.categories ++ [c] }
  else none

/-- Insert a shop: fails when the `@id`, the `@unique` name or the
`@unique` seller email collides, or when `sellerEmail` references no
existing user (`@relation` to `users.email`). -/
def insertShop (db : DBState) (s : ShopRow) : Option DBState :=
  if !db.shops.any (fun t => t.id == s.id || t.name == s.name || t.sellerEmail == s.sellerEmail)
      && db.users.any (fun u => u.email == s.sellerEmail) then
    some { db with shops := db.shops ++ [s] }
  else none

/-- Insert a product: fails when the `@id` or the `@unique` name
collides, or when `shopName`/`categorySlug` reference no existing shop or
category (`@relation` to `shops.name` and `categories.slug`). -/
def insertProduct (db : DBState) (p : ProductRow) : Option DBState :=
  if !db.products.any (fun q => q.id == p.id || q.name == p.name)
      && db.shops.any (fun s => s.name == p.shopName)
      && db.categories.any (fun c => c.slug == p.categorySlug) then
    some { db with products := db.products ++ [p] }
  else none

/-- Insert an order together with its cart line-items: fails when the
`@id` or the `@unique` paymentId collides, when `userEmail` references no
existing user, or when some line-item does not point back at this order
via `orderId`. -/
def insertOrder (db : DBState) (o : OrderRow) (lines : List CartRow) : Option DBState :=
  if !db.orders.any (fun q => q.id == o.id || q.paymentId == o.paymentId)
      && db.users.any (fun u => u.email == o.userEmail)
      && lines.all (fun c => c.orderId == some o.id) then
    some { db with orders := db.orders ++ [o], carts := db.carts ++ lines }
  else none

/-- The constraints declared by the schema, as a predicate on database
states: uniqueness of user emails, category slugs, shop names, shop
seller emails, product names, order ids and payment ids, and the foreign
keys from shops, products, orders and cart line-items. -/
def dbInvariant (db : DBState) : Prop :=
  (db.users.map UserRow.email).Nodup ∧
  (db.categories.map CategoryRow.slug).Nodup ∧
  (db.shops.map ShopRow.name).Nodup ∧
  (db.shops.map ShopRow.sellerEmail).Nodup ∧
  (∀ s ∈ db.shops, ∃ u ∈ db.users, u.email = s.sellerEmail) ∧
  (db.products.map ProductRow.name).Nodup ∧
  (∀ p ∈ db.products, ∃ s ∈ db.shops, s.name = p.shopName) ∧
  (∀ p ∈ db.products, ∃ c ∈ db.categories, c.slug = p.categorySlug) ∧
  (db.orders.map OrderRow.id).Nodup ∧
  (db.orders.map OrderRow.paymentId).Nodup ∧
  (∀ o ∈ db.orders, ∃ u ∈ db.users, u.email = o.userEmail) ∧
  (∀ c ∈ db.carts, ∀ oid, c.orderId = some oid → ∃ o ∈ db.orders, o.id = oid)

/-- Database states reachable from the empty database through the
creation operations. -/
inductive Reachable : DBState → Prop where
  | empty : Reachable dbEmpty
  | user {db db' : DBState} {u : UserRow} :
      Reachable db → insertUser db u = some db' → Reachable db'
  | category {db db' : DBState} {c : CategoryRow} :
      Reachable db → insertCategory db c = some db' → Reachable db'
  | shop {db db' : DBState} {s : ShopRow} :
      Reachable db → insertShop db s = some db' → Reachable db'
  | product {db db' : DBState} {p : ProductRow} :
      Reachable db → insertProduct db p = some db' → Reachable db'
  | order {db db' : DBState} {o : OrderRow} {lines : List CartRow} :
      Reachable db → insertOrder db o lines = some db' → Reachable db'

/-!
Part 4: statement-level definitions and concrete fixtures used by the
theorems and their witnesses.
-/

/-- The product data `onSubmit` POSTs under an environment in which every
upload succeeds: the `uploadedImages` URLs in slot order, the parsed
price and stock, and the `shopName` prop. -/
def postedProduct (env : Env) (shopName : String) (data : ProductFormValues) : ProductData :=
  { name := data.name
    images := uploadUrls env data.images 0
    variants := data.variants
    price := jsParseFloat data.price
    stock := jsParseInt10 data.stock
    description := data.description
    specifications := data.specifications
    categorySlug := data.categorySlug
    shopName := shopName }

/-- An image slot holding a file that the schema must reject: oversized
or of an unaccepted MIME type. -/
def slotViolation (s : ImageSlot) : Bool :=
  match s.file with
  | none => false
  | some f => decide (MAX_FILE_SIZE < f.size) || !(ACCEPTED_IMAGE_TYPES.contains f.type)

/-- Environment in which every upload succeeds and the API answers ok. -/
def exampleEnv : Env :=
  { uploadResult := fun _ _ => some "https://i.ibb.co/abc/img.png", apiOk := true }

/-- Environment in which every upload fails. -/
def exampleFailEnv : Env :=
  { uploadResult := fun _ _ => none, apiOk := true }

/-- A form input the schema accepts: one image slot filled, four empty. -/
def exampleValues : ProductFormValues :=
  { name := "Wireless Mouse"
    categorySlug := "electronics"
    price := "19.99"
    images := [⟨some ⟨1024, "image/png"⟩⟩, ⟨none⟩, ⟨none⟩, ⟨none⟩, ⟨none⟩]
    variants := ["red", "blue", "green", "black", "white"]
    description := "A compact wireless mouse."
    specifications := ["2.4 GHz", "USB", "AA battery", "DPI 1600", "Black", "90 g"]
    stock := "25" }

/-- The accepted input with all five image slots left empty. -/
def emptyImagesValues : ProductFormValues :=
  { exampleValues with images := [⟨none⟩, ⟨none⟩, ⟨none⟩, ⟨none⟩, ⟨none⟩] }

/-- The accepted input with its price replaced by the string `0`. -/
def badPriceValues : ProductFormValues :=
  { exampleValues with price := "0" }

/-- The accepted input with an oversized image file in the first slot. -/
def badFileValues : ProductFormValues :=
  { exampleValues with
      images := [⟨some ⟨MAX_FILE_SIZE + 1, "image/png"⟩⟩, ⟨none⟩, ⟨none⟩, ⟨none⟩, ⟨none⟩] }

/-- A seller user row. -/
def exampleUser : UserRow :=
  { id := "u1", name := some "Alice", image := none, role := Role.seller
    email := "alice@example.com", password := none, status := Status.active }

/-- A category row. -/
def exampleCategory : CategoryRow :=
  { id := "c1", name := "Electronics", slug := "electronics", image := "cat.png"
    details := "Gadgets", status := Status.active }

/-- A shop row owned by the seller. -/
def exampleShop : ShopRow :=
  { id := "s1", name := "Alice Store", image := "shop.png", details := "A shop"
    address := "1 Main St", sellerEmail := "alice@example.com", status := Status.active }

/-- A product row of that shop and category. -/
def exampleProduct : ProductRow :=
  { id := "p1", name := "Wireless Mouse", images := ["img.png"], variants := ["red"]
    price := 20, stock := 25, description := "A compact wireless mouse."
    specifications := ["USB"], shopName := "Alice Store", categorySlug := "electronics" }

/-- An order row of the user. -/
def exampleOrder : OrderRow :=
  { id := "o1", paymentId := "pay1", status := "pending", totalAmount := 20
    userEmail := "alice@example.com" }

/-- A cart line-item of that order. -/
def exampleCart : CartRow :=
  { id := "l1", productId := "p1", name := "Wireless Mouse", price := 20
    variant := "red", quantity := 1, image := "img.png", shopName := "Alice Store"
    categorySlug := "electronics", orderId := some "o1" }

/-- Database after inserting the user. -/
def exampleDb1 : DBState := { dbEmpty with users := [exampleUser] }

/-- Database after inserting the category. -/
def exampleDb2 : DBState := { exampleDb1 with categories := [exampleCategory] }

/-- Database after inserting the shop. -/
def exampleDb3 : DBState := { exampleDb2 with shops := [exampleShop] }

/-- Database after inserting the product. -/
def exampleDb4 : DBState := { exampleDb3 with products := [exampleProduct] }

/-- Database after inserting the order and its line-item. -/
def exampleDb5 : DBState :=
  { exampleDb4 with orders := [exampleOrder], carts := [exampleCart] }

/-!
Preservation of the schema constraints by every creation operation.
-/

/-- Appending a fresh element keeps a list without duplicates. -/
lemma nodup_append_singleton {α : Type} {xs : List α} {a : α}
    (h1 : xs.Nodup) (h2 : a ∉ xs) : (xs ++ [a]).Nodup := by
  rw [List.nodup_append]
  refine ⟨h1, List.nodup_singleton a, ?_⟩
  intro x hx hxa
  rw [List.mem_singleton] at hxa
  subst hxa
  exact h2 hx

/-- Freshness of a mapped attribute, from the row-level collision check. -/
lemma map_not_mem {α β : Type} [DecidableEq β] {xs : List α} {f : α → β} {b : β}
    (h : ∀ x ∈ xs, f x ≠ b) : b ∉ xs.map f := by
  intro hb
  obtain ⟨x, hx, hfx⟩ := List.mem_map.mp hb
  exact h x hx hfx

/-- Inserting a user preserves the schema constraints. -/
lemma insertUser_inv {db db' : DBState} {u : UserRow}
    (hi : dbInvariant db) (he : insertUser db u = some db') : dbInvariant db' := by
  unfold insertUser at he
  split at he
  case isFalse => exact absurd he (by simp)
  case isTrue hc =>
    injection he with he
    subst he
    rw [Bool.not_eq_true'] at hc
    have hall := List.any_eq_false.mp hc
    obtain ⟨h1, h2, h3, h4, h5, h6, h7, h8, h9, h10, h11, h12⟩ := hi
    refine ⟨?_, h2, h3, h4, ?_, h6, h7, h8, h9, h10, ?_, h12⟩
    · simp only [List.map_append, List.map_cons, List.map_nil]
      refine nodup_append_singleton h1 (map_not_mem fun w hw => ?_)
      have := hall w hw
      simp only [Bool.not_eq_true, Bool.or_eq_false_iff, beq_eq_false_iff_ne] at this
      exact this.2
    · intro s hs
      obtain ⟨w, hw, hweq⟩ := h5 s hs
      exact ⟨w, List.mem_append_left _ hw, hweq⟩
    · intro o ho
      obtain ⟨w, hw, hweq⟩ := h11 o ho
      exact ⟨w, List.mem_append_left _ hw, hweq⟩

/-- Inserting a category preserves the schema constraints. -/
lemma insertCategory_inv {db db' : DBState} {c : CategoryRow}
    (hi : dbInvariant db) (he : insertCategory db c = some db') : dbInvariant db' := by
  unfold insertCategory at he
  split at he
  case isFalse => exact absurd he (by simp)
  case isTrue hc =>
    injection he with he
    subst he
    rw [Bool.not_eq_true'] at hc
    have hall := List.any_eq_false.mp hc
    obtain ⟨h1, h2, h3, h4, h5, h6, h7, h8, h9, h10, h11, h12⟩ := hi
    refine ⟨h1, ?_, h3, h4, h5, h6, h7, ?_, h9, h10, h11, h12⟩
    · simp only [List.map_append, List.map_cons, List.map_nil]
      refine nodup_append_singleton h2 (map_not_mem fun d hd => ?_)
      have := hall d hd
      simp only [Bool.not_eq_true, Bool.or_eq_false_iff, beq_eq_false_iff_ne] at this
      exact this.2
    · intro p hp
      obtain ⟨d, hd, hdeq⟩ := h8 p hp
      exact ⟨d, List.mem_append_left _ hd, hdeq⟩

/-- Inserting a shop preserves the schema constraints. -/
lemma insertShop_inv {db db' : DBState} {s : ShopRow}
    (hi : dbInvariant db) (he : insertShop db s = some db') : dbInvariant db' := by
  unfold insertShop at he
  split at he
  case isFalse => exact absurd he (by simp)
  case isTrue hc =>
    injection he with he
    subst he
    simp only [Bool.and_eq_true, Bool.not_eq_true'] at hc
    obtain ⟨hcoll, hfk⟩ := hc
    have hall := List.any_eq_false.mp hcoll
    obtain ⟨w, hw, hweq⟩ := List.any_eq_true.mp hfk
    obtain ⟨h1, h2, h3, h4, h5, h6, h7, h8, h9, h10, h11, h12⟩ := hi
    refine ⟨h1, h2, ?_, ?_, ?_, h6, ?_, h8, h9, h10, h11, h12⟩
    · simp only [List.map_append, List.map_cons, List.map_nil]
      refine nodup_append_singleton h3 (map_not_mem fun t ht => ?_)
      have := hall t ht
      simp only [Bool.not_eq_true, Bool.or_eq_false_iff, beq_eq_false_iff_ne] at this
      exact this.1.2
    · simp only [List.map_append, List.map_cons, List.map_nil]
      refine nodup_append_singleton h4 (map_not_mem fun t ht => ?_)
      have := hall t ht
      simp only [Bool.not_eq_true, Bool.or_eq_false_iff, beq_eq_false_iff_ne] at this
      exact this.2
    · intro t ht
      rcases List.mem_append.mp ht with ht' | ht'
      · exact h5 t ht'
      · rw [List.mem_singleton.mp ht']
        exact ⟨w, hw, beq_iff_eq.mp hweq⟩
    · intro p hp
      obtain ⟨t, ht, hteq⟩ := h7 p hp
      exact ⟨t, List.mem_append_left _ ht, hteq⟩

/-- Inserting a product preserves the schema constraints. -/
lemma insertProduct_inv {db db' : DBState} {p : ProductRow}
    (hi : dbInvariant db) (he : insertProduct db p = some db') : dbInvariant db' := by
  unfold insertProduct at he
  split at he
  case isFalse => exact absurd he (by simp)
  case isTrue hc =>
    injection he with he
    subst he
    simp only [Bool.and_eq_true, Bool.not_eq_true'] at hc
    obtain ⟨⟨hcoll, hshop⟩, hcat⟩ := hc
    have hall := List.any_eq_false.mp hcoll
    obtain ⟨t, ht, hteq⟩ := List.any_eq_true.mp hshop
    obtain ⟨d, hd, hdeq⟩ := List.any_eq_true.mp hcat
    obtain ⟨h1, h2, h3, h4, h5, h6, h7, h8, h9, h10, h11, h12⟩ := hi
    refine ⟨h1, h2, h3, h4, h5, ?_, ?_, ?_, h9, h10, h11, h12⟩
    · simp only [List.map_append, List.map_cons, List.map_nil]
      refine nodup_append_singleton h6 (map_not_mem fun q hq => ?_)
      have := hall q hq
      simp only [Bool.not_eq_true, Bool.or_eq_false_iff, beq_eq_false_iff_ne] at this
      exact this.2
    · intro q hq
      rcases List.mem_append.mp hq with hq' | hq'
      · exact h7 q hq'
      · rw [List.mem_singleton.mp hq']
        exact ⟨t, ht, beq_iff_eq.mp hteq⟩
    · intro q hq
      rcases List.mem_append.mp hq with hq' | hq'
      · exact h8 q hq'
      · rw [List.mem_singleton.mp hq']
        exact ⟨d, hd, beq_iff_eq.mp hdeq⟩

/-- Inserting an order with its line-items preserves the schema
constraints. -/
lemma insertOrder_inv {db db' : DBState} {o : OrderRow} {lines : List CartRow}
    (hi : dbInvariant db) (he : insertOrder db o lines = some db') : dbInvariant db' := by
  unfold insertOrder at he
  split at he
  case isFalse => exact absurd he (by simp)
  case isTrue hc =>
    injection he with he
    subst he
    simp only [Bool.and_eq_true, Bool.not_eq_true'] at hc
    obtain ⟨⟨hcoll, hfk⟩, hlines⟩ := hc
    have hall := List.any_eq_false.mp hcoll
    obtain ⟨w, hw, hweq⟩ := List.any_eq_true.mp hfk
    have hlines' := List.all_eq_true.mp hlines
    obtain ⟨h1, h2, h3, h4, h5, h6, h7, h8, h9, h10, h11, h12⟩ := hi
    refine ⟨h1, h2, h3, h4, h5, h6, h7, h8, ?_, ?_, ?_, ?_⟩
    · simp only [List.map_append, List.map_cons, List.map_nil]
      refine nodup_append_singleton h9 (map_not_mem fun q hq => ?_)
      have := hall q hq
      simp only [Bool.not_eq_true, Bool.or_eq_false_iff, beq_eq_false_iff_ne] at this
      exact this.1
    · simp only [List.map_append, List.map_cons, List.map_nil]
      refine nodup_append_singleton h10 (map_not_mem fun q hq => ?_)
      have := hall q hq
      simp only [Bool.not_eq_true, Bool.or_eq_false_iff, beq_eq_false_iff_ne] at this
      exact this.2
    · intro q hq
      rcases List.mem_append.mp hq with hq' | hq'
      · exact h11 q hq'
      · rw [List.mem_singleton.mp hq']
        exact ⟨w, hw, beq_iff_eq.mp hweq⟩
    · intro c hcc oid hoid
      rcases List.mem_append.mp hcc with hc' | hc'
      · obtain ⟨q, hq, hqeq⟩ := h12 c hc' oid hoid
        exact ⟨q, List.mem_append_left _ hq, hqeq⟩
      · have := beq_iff_eq.mp (hlines' c hc')
        rw [this] at hoid
        injection hoid with hoid
        exact ⟨o, List.mem_append_right _ (List.mem_singleton.mpr rfl), hoid⟩

/-- Every reachable database state satisfies the schema constraints. -/
lemma reachable_dbInvariant {db : DBState} (h : Reachable db) : dbInvariant db := by
  induction h with
  | empty =>
      refine ⟨?_, ?_, ?_, ?_, ?_, ?_, ?_, ?_, ?_, ?_, ?_, ?_⟩ <;>
        simp [dbEmpty]
  | user _ he ih => exact insertUser_inv ih he
  | category _ he ih => exact insertCategory_inv ih he
  | shop _ he ih => exact insertShop_inv ih he
  | product _ he ih => exact insertProduct_inv ih he
  | order _ he ih => exact insertOrder_inv ih he

/-!
Lemmas on the upload loop of `onSubmit`.
-/

/-- When every upload the environment is asked for succeeds, the upload
loop issues exactly one upload per file-bearing slot, in slot order, and
collects the returned URLs. -/
lemma uploadLoop_success (env : Env) (h : ∀ k f, (env.uploadResult k f).isSome = true) :
    ∀ (slots : List ImageSlot) (k : Nat),
      uploadLoop env slots k
        = ((slotFiles slots).map Event.imgbbUpload, some (uploadUrls env slots k)) := by
  intro slots
  induction slots with
  | nil => intro k; simp [uploadLoop, slotFiles, uploadUrls]
  | cons slot rest ih =>
    intro k
    cases hf : slot.file with
    | none => simp [uploadLoop, slotFiles, uploadUrls, hf, ih k]
    | some f =>
      obtain ⟨url, hurl⟩ := Option.isSome_iff_exists.mp (h k f)
      simp [uploadLoop, slotFiles, uploadUrls, hf, hurl, ih (k + 1)]

/-- The upload loop never issues the POST to `/api/products`. -/
lemma uploadLoop_no_apiPost (env : Env) :
    ∀ (slots : List ImageSlot) (k : Nat),
      (uploadLoop env slots k).1.countP Event.isApiPost = 0 := by
  intro slots
  induction slots with
  | nil => intro k; simp [uploadLoop]
  | cons slot rest ih =>
    intro k
    cases hf : slot.file with
    | none => simp [uploadLoop, hf, ih k]
    | some f =>
      cases hr : env.uploadResult k f with
      | none => simp [uploadLoop, hf, hr, List.countP_cons, Event.isApiPost]
      | some url => simp [uploadLoop, hf, hr, List.countP_cons, Event.isApiPost, ih (k + 1)]

/-- The upload loop issues at most one upload per file-bearing slot. -/
lemma uploadLoop_upload_count (env : Env) :
    ∀ (slots : List ImageSlot) (k : Nat),
      (uploadLoop env slots k).1.countP Event.isImgbbUpload ≤ (slotFiles slots).length := by
  intro slots
  induction slots with
  | nil => intro k; simp [uploadLoop]
  | cons slot rest ih =>
    intro k
    cases hf : slot.file with
    | none => simp [uploadLoop, slotFiles, hf]; exact ih k
    | some f =>
      cases hr : env.uploadResult k f with
      | none =>
          simp [uploadLoop, slotFiles, hf, hr, List.countP_cons, Event.isImgbbUpload]
      | some url =>
          simp [uploadLoop, slotFiles, hf, hr, List.countP_cons, Event.isImgbbUpload]
          exact ih (k + 1)

/-- The URLs collected are one per file-bearing slot. -/
lemma uploadUrls_length (env : Env) :
    ∀ (slots : List ImageSlot) (k : Nat),
      (uploadUrls env slots k).length = (slotFiles slots).length := by
  intro slots
  induction slots with
  | nil => intro k; simp [uploadUrls, slotFiles]
  | cons slot rest ih =>
    intro k
    cases hf : slot.file with
    | none => simp [uploadUrls, slotFiles, hf, ih k]
    | some f => simp [uploadUrls, slotFiles, hf, ih (k + 1)]

/-- Under an all-uploads-succeed environment the last event of a run is
the POST of the assembled product data with the `role` header. -/
lemma onSubmit_getLast_post (env : Env) (role shopName : String)
    (data : ProductFormValues) (h : ∀ k f, (env.uploadResult k f).isSome = true) :
    (onSubmit env role shopName data).events.getLast?
      = some (Event.apiPost (postedProduct env shopName data) role) := by
  have hrw := uploadLoop_success env h data.images 0
  cases hapi : env.apiOk <;>
    simp [onSubmit, hrw, hapi, postedProduct, List.getLast?_concat]

/-- Two mutually exclusive Boolean comparisons on a conversion result. -/
lemma gtZero_leZero_false (j : JsNum) (h1 : j.gtZero = true) (h2 : j.leZero = true) :
    False := by
  cases j with
  | num q =>
      simp [JsNum.gtZero] at h1
      simp [JsNum.leZero] at h2
      exact absurd h1 (not_lt.mpr h2)
  | nan => simp [JsNum.gtZero] at h1
  | posInf => simp [JsNum.leZero] at h2
  | negInf => simp [JsNum.gtZero] at h1

/-- A non-negative conversion result is not negative. -/
lemma geZero_ltZero_false (j : JsNum) (h1 : j.geZero = true) (h2 : j.ltZero = true) :
    False := by
  cases j with
  | num q =>
      simp [JsNum.geZero] at h1
      simp [JsNum.ltZero] at h2
      exact absurd h2 (not_lt.mpr h1)
  | nan => simp [JsNum.geZero] at h1
  | posInf => simp [JsNum.ltZero] at h2
  | negInf => simp [JsNum.geZero] at h1

/-- The example user insertion. -/
lemma insert_exampleUser : insertUser dbEmpty exampleUser = some exampleDb1 := by rfl

/-- The example category insertion. -/
lemma insert_exampleCategory :
    insertCategory exampleDb1 exampleCategory = some exampleDb2 := by rfl

/-- The example shop insertion. -/
lemma insert_exampleShop : insertShop exampleDb2 exampleShop = some exampleDb3 := by rfl

/-- The example product insertion. -/
lemma insert_exampleProduct :
    insertProduct exampleDb3 exampleProduct = some exampleDb4 := by rfl

/-- The example order insertion. -/
lemma insert_exampleOrder :
    insertOrder exampleDb4 exampleOrder [exampleCart] = some exampleDb5 := by rfl

/-- The example databases are reachable. -/
lemma reachable_exampleDb3 : Reachable exampleDb3 :=
  Reachable.shop
    (Reachable.category (Reachable.user Reachable.empty insert_exampleUser)
      insert_exampleCategory)
    insert_exampleShop

/-- Reachability once the product is inserted. -/
lemma reachable_exampleDb4 : Reachable exampleDb4 :=
  Reachable.product reachable_exampleDb3 insert_exampleProduct

/-- Reachability once the order is inserted. -/
lemma reachable_exampleDb5 : Reachable exampleDb5 :=
  Reachable.order reachable_exampleDb4 insert_exampleOrder

/-- The fixed-length constraints of the schema, extracted from an
accepted input. -/
lemma schema_lengths_auxiliary {v : ProductFormValues}
    (hv : productFormSchema v = true) :
    v.images.length = 5 ∧ v.variants.length = 5 ∧ v.specifications.length = 6 := by
  simp only [productFormSchema, Bool.and_eq_true, decide_eq_true_eq] at hv
  obtain ⟨⟨⟨⟨⟨⟨_, _⟩, himg⟩, hvar⟩, _⟩, hspec⟩, _⟩ := hv
  exact ⟨himg.1, hvar, hspec⟩

/-!
The claims.
-/

/-- C1: validation rejects every input whose price string does not parse
to a number or parses to a number at most 0, and every input whose stock
string does not parse to a number; such inputs are never submitted to
`/api/products` (the guarded handler does not run). -/
theorem schema_rejects_bad_price_or_stock (env : Env) (role shopName : String)
    (v : ProductFormValues)
    (h : (jsNumber v.price).isNaN = true ∨ (jsNumber v.price).leZero = true ∨
      (jsNumber v.stock).isNaN = true) :
    productFormSchema v = false ∧ handleSubmit env role shopName v = none := by
  have hfalse : productFormSchema v = false := by
    cases hv : productFormSchema v
    · rfl
    · exfalso
      simp only [productFormSchema, Bool.and_eq_true, Bool.not_eq_true'] at hv
      obtain ⟨⟨⟨⟨⟨⟨_, hprice⟩, _⟩, _⟩, _⟩, _⟩, hstock⟩ := hv
      rcases h with hn | hle | hs
      · rw [hprice.1] at hn
        exact Bool.false_ne_true hn
      · exact gtZero_leZero_false _ hprice.2 hle
      · rw [hstock.1] at hs
        exact Bool.false_ne_true hs
  exact ⟨hfalse, by simp [handleSubmit, hfalse]⟩

/-- C1 witness: the otherwise valid input with price `0` is rejected and
never submitted. -/
theorem schema_rejects_bad_price_or_stock_witness :
    productFormSchema badPriceValues = false ∧
    handleSubmit exampleEnv "seller" "Alice Store" badPriceValues = none :=
  schema_rejects_bad_price_or_stock exampleEnv "seller" "Alice Store" badPriceValues
    (Or.inr (Or.inl (by decide)))

/-- C2: validation accepts only inputs with exactly 5 image slots,
exactly 5 variants and exactly 6 specifications. -/
theorem schema_exact_lengths (v : ProductFormValues)
    (hv : productFormSchema v = true) :
    v.images.length = 5 ∧ v.variants.length = 5 ∧ v.specifications.length = 6 :=
  schema_lengths_auxiliary hv

/-- C2 witness: the example input is accepted and has those lengths. -/
theorem schema_exact_lengths_witness :
    exampleValues.images.length = 5 ∧ exampleValues.variants.length = 5 ∧
    exampleValues.specifications.length = 6 :=
  schema_exact_lengths exampleValues (by decide)

/-- C3: on a validated input, when every upload succeeds, the run issues
one upload per file-bearing slot in slot order followed by exactly one
POST to `/api/products`. -/
theorem onSubmit_sequential_uploads_then_one_post (env : Env)
    (role shopName : String) (data : ProductFormValues)
    (hv : productFormSchema data = true)
    (h : ∀ k f, (env.uploadResult k f).isSome = true) :
    (onSubmit env role shopName data).events
      = (slotFiles data.images).map Event.imgbbUpload
        ++ [Event.apiPost (postedProduct env shopName data) role]
    ∧ (onSubmit env role shopName data).events.countP Event.isApiPost = 1 := by
  have hrw := uploadLoop_success env h data.images 0
  have h0 := uploadLoop_no_apiPost env data.images 0
  rw [hrw] at h0
  constructor
  · cases hapi : env.apiOk <;> simp [onSubmit, hrw, hapi, postedProduct]
  · cases hapi : env.apiOk <;>
      simp [onSubmit, hrw, hapi, List.countP_append, List.countP_cons,
        Event.isApiPost, h0]

/-- C3 witness: the example run uploads the single present file and then
posts once. -/
theorem onSubmit_sequential_uploads_then_one_post_witness :
    (onSubmit exampleEnv "seller" "Alice Store" exampleValues).events
      = (slotFiles exampleValues.images).map Event.imgbbUpload
        ++ [Event.apiPost (postedProduct exampleEnv "Alice Store" exampleValues) "seller"]
    ∧ (onSubmit exampleEnv "seller" "Alice Store" exampleValues).events.countP
        Event.isApiPost = 1 :=
  onSubmit_sequential_uploads_then_one_post exampleEnv "seller" "Alice Store"
    exampleValues (by decide) (fun _ _ => rfl)

/-- C4: the JSON body POSTed to `/api/products` has exactly the fields
name, images, variants, price, stock, description, specifications,
categorySlug, shopName — price being the `parseFloat` of the price
string, stock the base-10 `parseInt` of the stock string and shopName the
component prop — and the request carries the `role` prop as header. -/
theorem onSubmit_posts_exact_payload (env : Env) (role shopName : String)
    (data : ProductFormValues) (hv : productFormSchema data = true)
    (h : ∀ k f, (env.uploadResult k f).isSome = true) :
    (onSubmit env role shopName data).events.getLast?
      = some (Event.apiPost
          { name := data.name
            images := uploadUrls env data.images 0
            variants := data.variants
            price := jsParseFloat data.price
            stock := jsParseInt10 data.stock
            description := data.description
            specifications := data.specifications
            categorySlug := data.categorySlug
            shopName := shopName } role) :=
  onSubmit_getLast_post env role shopName data h

/-- C4 witness: the payload of the example run. -/
theorem onSubmit_posts_exact_payload_witness :
    (onSubmit exampleEnv "seller" "Alice Store" exampleValues).events.getLast?
      = some (Event.apiPost
          { name := exampleValues.name
            images := uploadUrls exampleEnv exampleValues.images 0
            variants := exampleValues.variants
            price := jsParseFloat exampleValues.price
            stock := jsParseInt10 exampleValues.stock
            description := exampleValues.description
            specifications := exampleValues.specifications
            categorySlug := exampleValues.categorySlug
            shopName := "Alice Store" } "seller") :=
  onSubmit_posts_exact_payload exampleEnv "seller" "Alice Store" exampleValues
    (by decide) (fun _ _ => rfl)

/-- C5: when an upload or the API request fails, the run shows exactly
the one generic destructive toast, does not reset the form, never issues
the POST more than once and never retries an upload (at most one upload
per file-bearing slot). -/
theorem onSubmit_failure_toast_no_retry_no_reset (env : Env)
    (role shopName : String) (data : ProductFormValues)
    (hfail : (uploadLoop env data.images 0).2 = none ∨ env.apiOk = false) :
    (onSubmit env role shopName data).toasts = [errorToast]
    ∧ (onSubmit env role shopName data).formReset = false
    ∧ (onSubmit env role shopName data).events.countP Event.isApiPost ≤ 1
    ∧ (onSubmit env role shopName data).events.countP Event.isImgbbUpload
        ≤ (slotFiles data.images).length := by
  have h0 := uploadLoop_no_apiPost env data.images 0
  have h1 := uploadLoop_upload_count env data.images 0
  cases hup : (uploadLoop env data.images 0).2 with
  | none =>
      refine ⟨?_, ?_, ?_, ?_⟩ <;> simp [onSubmit, hup, h0, h1]
  | some urls =>
      have hapi : env.apiOk = false := by
        rcases hfail with hf | hf
        · rw [hup] at hf; exact absurd hf (by simp)
        · exact hf
      refine ⟨?_, ?_, ?_, ?_⟩ <;>
        simp [onSubmit, hup, hapi, List.countP_append, List.countP_cons,
          Event.isApiPost, Event.isImgbbUpload, h0, h1]

/-- C5 witness: the failing-upload run on the example input. -/
theorem onSubmit_failure_toast_no_retry_no_reset_witness :
    (onSubmit exampleFailEnv "seller" "Alice Store" exampleValues).toasts = [errorToast]
    ∧ (onSubmit exampleFailEnv "seller" "Alice Store" exampleValues).formReset = false
    ∧ (onSubmit exampleFailEnv "seller" "Alice Store" exampleValues).events.countP
        Event.isApiPost ≤ 1
    ∧ (onSubmit exampleFailEnv "seller" "Alice Store" exampleValues).events.countP
        Event.isImgbbUpload ≤ (slotFiles exampleValues.images).length :=
  onSubmit_failure_toast_no_retry_no_reset exampleFailEnv "seller" "Alice Store"
    exampleValues (Or.inl rfl)

/-- C6: in every reachable database state shop names are unique, seller
emails are unique across shops (each seller email owns at most one shop,
each shop one seller email), and every shop's seller email references an
existing user. -/
theorem shops_one_to_one_with_sellers {db : DBState} (h : Reachable db) :
    (db.shops.map ShopRow.name).Nodup
    ∧ (db.shops.map ShopRow.sellerEmail).Nodup
    ∧ ∀ s ∈ db.shops, ∃ u ∈ db.users, u.email = s.sellerEmail := by
  obtain ⟨_, _, h3, h4, h5, _⟩ := reachable_dbInvariant h
  exact ⟨h3, h4, h5⟩

/-- C6 witness: the example database with one shop. -/
theorem shops_one_to_one_with_sellers_witness :
    (exampleDb3.shops.map ShopRow.name).Nodup
    ∧ (exampleDb3.shops.map ShopRow.sellerEmail).Nodup
    ∧ ∀ s ∈ exampleDb3.shops, ∃ u ∈ exampleDb3.users, u.email = s.sellerEmail :=
  shops_one_to_one_with_sellers reachable_exampleDb3

/-- C7: in every reachable database state product names are unique and
every product references an existing shop and category; a successful
product creation appends exactly one product row, whose shop and
category exist. -/
theorem product_creation_single_row_with_references {db db' : DBState}
    {p : ProductRow} (h : Reachable db) (he : insertProduct db p = some db') :
    db'.products = db.products ++ [p]
    ∧ (∃ s ∈ db.shops, s.name = p.shopName)
    ∧ (∃ c ∈ db.categories, c.slug = p.categorySlug)
    ∧ (db'.products.map ProductRow.name).Nodup
    ∧ ∀ q ∈ db'.products,
        (∃ s ∈ db'.shops, s.name = q.shopName) ∧
        (∃ c ∈ db'.categories, c.slug = q.categorySlug) := by
  have hinv := insertProduct_inv (reachable_dbInvariant h) he
  unfold insertProduct at he
  split at he
  case isFalse => exact absurd he (by simp)
  case isTrue hc =>
    injection he with he
    subst he
    simp only [Bool.and_eq_true, Bool.not_eq_true'] at hc
    obtain ⟨⟨_, hshop⟩, hcat⟩ := hc
    obtain ⟨t, ht, hteq⟩ := List.any_eq_true.mp hshop
    obtain ⟨d, hd, hdeq⟩ := List.any_eq_true.mp hcat
    obtain ⟨_, _, _, _, _, h6, h7, h8, _⟩ := hinv
    exact ⟨rfl, ⟨t, ht, beq_iff_eq.mp hteq⟩, ⟨d, hd, beq_iff_eq.mp hdeq⟩, h6,
      fun q hq => ⟨h7 q hq, h8 q hq⟩⟩

/-- C7 witness: creating the example product in the example database. -/
theorem product_creation_single_row_with_references_witness :
    exampleDb4.products = exampleDb3.products ++ [exampleProduct]
    ∧ (∃ s ∈ exampleDb3.shops, s.name = exampleProduct.shopName)
    ∧ (∃ c ∈ exampleDb3.categories, c.slug = exampleProduct.categorySlug)
    ∧ (exampleDb4.products.map ProductRow.name).Nodup
    ∧ ∀ q ∈ exampleDb4.products,
        (∃ s ∈ exampleDb4.shops, s.name = q.shopName) ∧
        (∃ c ∈ exampleDb4.categories, c.slug = q.categorySlug) :=
  product_creation_single_row_with_references reachable_exampleDb3 insert_exampleProduct

/-- C8: in every reachable database state payment ids and order ids are
unique, every order belongs to an existing user via its email, and every
cart line-item attached to an order id belongs to an existing order (the
line-item rows carry the denormalized snapshot fields by construction of
`CartRow`). -/
theorem orders_unique_payment_and_own_lines {db : DBState} (h : Reachable db) :
    (db.orders.map OrderRow.paymentId).Nodup
    ∧ (db.orders.map OrderRow.id).Nodup
    ∧ (∀ o ∈ db.orders, ∃ u ∈ db.users, u.email = o.userEmail)
    ∧ ∀ c ∈ db.carts, ∀ oid, c.orderId = some oid → ∃ o ∈ db.orders, o.id = oid := by
  obtain ⟨_, _, _, _, _, _, _, _, h9, h10, h11, h12⟩ := reachable_dbInvariant h
  exact ⟨h10, h9, h11, h12⟩

/-- C8 witness: the example database with one order and one line-item. -/
theorem orders_unique_payment_and_own_lines_witness :
    (exampleDb5.orders.map OrderRow.paymentId).Nodup
    ∧ (exampleDb5.orders.map OrderRow.id).Nodup
    ∧ (∀ o ∈ exampleDb5.orders, ∃ u ∈ exampleDb5.users, u.email = o.userEmail)
    ∧ ∀ c ∈ exampleDb5.carts, ∀ oid, c.orderId = some oid →
        ∃ o ∈ exampleDb5.orders, o.id = oid :=
  orders_unique_payment_and_own_lines reachable_exampleDb5

/-- C9: image files are optional per slot; the POSTed images array holds
one uploaded URL per slot that held a file, in slot order, so its length
is the number of file-bearing slots, anywhere from 0 to 5. -/
theorem posted_images_one_url_per_filled_slot (env : Env)
    (role shopName : String) (data : ProductFormValues)
    (hv : productFormSchema data = true)
    (h : ∀ k f, (env.uploadResult k f).isSome = true) :
    ∃ pd : ProductData,
      (onSubmit env role shopName data).events.getLast?
          = some (Event.apiPost pd role)
      ∧ pd.images = uploadUrls env data.images 0
      ∧ pd.images.length = (slotFiles data.images).length
      ∧ pd.images.length ≤ 5 := by
  refine ⟨postedProduct env shopName data,
    onSubmit_getLast_post env role shopName data h, rfl, ?_, ?_⟩
  · exact uploadUrls_length env data.images 0
  · rw [show (postedProduct env shopName data).images = uploadUrls env data.images 0
      from rfl, uploadUrls_length env data.images 0]
    calc (slotFiles data.images).length ≤ data.images.length :=
          List.length_filterMap_le _ _
      _ = 5 := (schema_lengths_auxiliary hv).1

/-- C9 witness: the input with all five image slots empty passes
validation and posts an empty images array. -/
theorem posted_images_one_url_per_filled_slot_witness :
    ∃ pd : ProductData,
      (onSubmit exampleEnv "seller" "Alice Store" emptyImagesValues).events.getLast?
          = some (Event.apiPost pd "seller")
      ∧ pd.images = uploadUrls exampleEnv emptyImagesValues.images 0
      ∧ pd.images.length = (slotFiles emptyImagesValues.images).length
      ∧ pd.images.length ≤ 5 :=
  posted_images_one_url_per_filled_slot exampleEnv "seller" "Alice Store"
    emptyImagesValues (by decide) (fun _ _ => rfl)

/-- C10: validation rejects any input with a provided image file that is
oversized (more than 5 MB) or of a MIME type other than jpeg, png or
webp, and any input whose stock string parses to a negative number. -/
theorem schema_rejects_bad_file_or_negative_stock (v : ProductFormValues)
    (h : v.images.any slotViolation = true ∨ (jsNumber v.stock).ltZero = true) :
    productFormSchema v = false := by
  cases hv : productFormSchema v
  · rfl
  · exfalso
    simp only [productFormSchema, Bool.and_eq_true, Bool.not_eq_true'] at hv
    obtain ⟨⟨⟨⟨⟨⟨_, _⟩, himg⟩, _⟩, _⟩, _⟩, hstock⟩ := hv
    rcases h with hbad | hneg
    · obtain ⟨s, hs, hsv⟩ := List.any_eq_true.mp hbad
      have hok := List.all_eq_true.mp himg.2 s hs
      cases hf : s.file with
      | none => simp [slotViolation, hf] at hsv
      | some f =>
          simp only [imageSlotOk, hf, fileOk, Bool.and_eq_true, decide_eq_true_eq] at hok
          simp only [slotViolation, hf, Bool.or_eq_true, decide_eq_true_eq,
            Bool.not_eq_true'] at hsv
          rcases hsv with h1 | h1
          · exact absurd hok.1 (not_le.mpr h1)
          · rw [h1] at hok
            exact Bool.false_ne_true hok.2
    · exact geZero_ltZero_false _ hstock.2 hneg

/-- C10 witness: the input with an oversized first image is rejected. -/
theorem schema_rejects_bad_file_or_negative_stock_witness :
    productFormSchema badFileValues = false :=
  schema_rejects_bad_file_or_negative_stock badFileValues (Or.inl (by decide))

end NextShop
